import Mathlib

/-
Verification development for the Glow Up backend (src/main.py).

The service is a CRUD app over three SQLite tables (posts, ratings,
reactions) plus a directory of image files.  This file gives a shallow
embedding of its data model and request handlers, and proves the
specification claims about them.

Modelling conventions:
* SQLite rows become Lean structures; the three tables and the upload
  directory become lists inside `AppState`.
* HTTP responses become `Res α`: `Res.ok` carries the JSON payload,
  `Res.err` carries the HTTP status code raised via `HTTPException`.
* `hashlib.sha256(...).hexdigest()` is embedded as an executable SHA-256
  over the UTF-8 bytes of the input string (`hash_pin`).
* SQLite floats (AVG, Python round) are modelled as exact rationals.
* Nondeterministic inputs of the real handlers (uuid4 ids, the share
  token, `datetime.utcnow()`) are passed as explicit parameters.
-/

/-! ### SHA-256 (`hashlib.sha256(...).hexdigest()`), executable -/

/-- Right rotation of a 32-bit word stored in a `Nat`. -/
def rotr (n x : Nat) : Nat := (x >>> n) ||| ((x <<< (32 - n)) % 4294967296)

/-- SHA-256 small sigma 0. -/
def ssig0 (x : Nat) : Nat := rotr 7 x ^^^ rotr 18 x ^^^ (x >>> 3)

/-- SHA-256 small sigma 1. -/
def ssig1 (x : Nat) : Nat := rotr 17 x ^^^ rotr 19 x ^^^ (x >>> 10)

/-- The 64 SHA-256 round constants of FIPS 180-4 (in decimal), K0 first. -/
def Kconst : List Nat :=
  [1116352408, 1899447441, 3049323471, 3921009573, 961987163, 1508970993,
   2453635748, 2870763221, 3624381080, 310598401, 607225278, 1426881987,
   1925078388, 2162078206, 2614888103, 3248222580, 3835390401, 4022224774,
   264347078, 604807628, 770255983, 1249150122, 1555081692, 1996064986,
   2554220882, 2821834349, 2952996808, 3210313671, 3336571891, 3584528711,
   113926993, 338241895, 666307205, 773529912, 1294757372, 1396182291,
   1695183700, 1986661051, 2177026350, 2456956037, 2730485921, 2820302411,
   3259730800, 3345764771, 3516065817, 3600352804, 4094571909, 275423344,
   430227734, 506948616, 659060556, 883997877, 958139571, 1322822218,
   1537002063, 1747873779, 1955562222, 2024104815, 2227730452, 2361852424,
   2428436474, 2756734187, 3204031479, 3329325298]

/-- UTF-8 encoding of one code point (`str.encode()` encodes each char this way). -/
def utf8Bytes (c : Nat) : List Nat :=
  if c < 128 then [c]
  else if c < 2048 then [192 + c / 64, 128 + c % 64]
  else if c < 65536 then [224 + c / 4096, 128 + (c / 64) % 64, 128 + c % 64]
  else [240 + c / 262144, 128 + (c / 4096) % 64, 128 + (c / 64) % 64, 128 + c % 64]

/-- The UTF-8 byte sequence of a string, as `pin.encode()` produces it. -/
def strBytes (s : String) : List Nat := (s.data.map (fun c => utf8Bytes c.toNat)).flatten

/-- SHA-256 padding: append 0x80, zero bytes up to 56 mod 64, then the
bit length as 8 big-endian bytes. -/
def padBytes (m : List Nat) : List Nat :=
  m ++ [128] ++ List.replicate ((119 - m.length % 64) % 64) 0
    ++ (List.range 8).map (fun i => (8 * m.length >>> (56 - 8 * i)) % 256)

/-- Group bytes into big-endian 32-bit words. -/
def bytesToWords : List Nat → List Nat
  | b0 :: b1 :: b2 :: b3 :: rest => (((b0 * 256 + b1) * 256 + b2) * 256 + b3) :: bytesToWords rest
  | _ => []

/-- The next word of the SHA-256 message schedule, from the last 16 words. -/
def nextW (w : List Nat) : Nat :=
  let g := fun i => w.getD i 0
  let n := w.length
  (g (n - 16) + ssig0 (g (n - 15)) + g (n - 7) + ssig1 (g (n - 2))) % 4294967296

/-- Extend the 16-word schedule by `n` further words. -/
def extendSched : Nat → List Nat → List Nat
  | 0, w => w
  | n + 1, w => extendSched n (w ++ [nextW w])

/-- The eight 32-bit working variables of SHA-256. -/
structure SHAState where
  a : Nat
  b : Nat
  c : Nat
  d : Nat
  e : Nat
  f : Nat
  g : Nat
  hh : Nat
deriving Repr, DecidableEq

/-- One SHA-256 compression round; `wk` is the (schedule word, round constant) pair. -/
def stepRound (s : SHAState) (wk : Nat × Nat) : SHAState :=
  let S1 := rotr 6 s.e ^^^ rotr 11 s.e ^^^ rotr 25 s.e
  let ch := (s.e &&& s.f) ^^^ ((4294967295 ^^^ s.e) &&& s.g)
  let t1 := (s.hh + S1 + ch + wk.2 + wk.1) % 4294967296
  let S0 := rotr 2 s.a ^^^ rotr 13 s.a ^^^ rotr 22 s.a
  let mj := (s.a &&& s.b) ^^^ (s.a &&& s.c) ^^^ (s.b &&& s.c)
  let t2 := (S0 + mj) % 4294967296
  ⟨(t1 + t2) % 4294967296, s.a, s.b, s.c, (s.d + t1) % 4294967296, s.e, s.f, s.g⟩

/-- Compress one 64-byte block into the running hash state. -/
def compressBlock (H : SHAState) (block : List Nat) : SHAState :=
  let ws := extendSched 48 (bytesToWords block)
  let st := (ws.zip Kconst).foldl stepRound H
  ⟨(H.a + st.a) % 4294967296, (H.b + st.b) % 4294967296, (H.c + st.c) % 4294967296,
   (H.d + st.d) % 4294967296, (H.e + st.e) % 4294967296, (H.f + st.f) % 4294967296,
   (H.g + st.g) % 4294967296, (H.hh + st.hh) % 4294967296⟩

/-- The SHA-256 initial hash value of FIPS 180-4 (in decimal), H0 first. -/
def H0 : SHAState :=
  ⟨1779033703, 3144134277, 1013904242, 2773480762,
   1359893119, 2600822924, 528734635, 1541459225⟩

/-- Split a list into `n` chunks of 64 bytes (the padded length is a
multiple of 64, so `n = length / 64` consumes everything). -/
def chunkF : Nat → List Nat → List (List Nat)
  | 0, _ => []
  | n + 1, l => l.take 64 :: chunkF n (l.drop 64)

/-- The eight 32-bit words of the SHA-256 digest of a byte sequence. -/
def sha256words (msg : List Nat) : List Nat :=
  let p := padBytes msg
  let Hf := (chunkF (p.length / 64) p).foldl compressBlock H0
  [Hf.a, Hf.b, Hf.c, Hf.d, Hf.e, Hf.f, Hf.g, Hf.hh]

/-- Lower-case hex digit. -/
def hexChar (n : Nat) : Char := if n < 10 then Char.ofNat (48 + n) else Char.ofNat (87 + n)

/-- A 32-bit word as exactly eight lower-case hex characters. -/
def toHex8 (n : Nat) : String :=
  String.mk ((List.range 8).map (fun i => hexChar ((n >>> (28 - 4 * i)) % 16)))

/-- Concatenation of a list of strings. -/
def concatAll : List String → String
  | [] => ""
  | x :: r => x ++ concatAll r

/-- `hash_pin` of src/main.py: `hashlib.sha256(pin.encode()).hexdigest()`. -/
def hash_pin (pin : String) : String := concatAll ((sha256words (strBytes pin)).map toHex8)

/-- Fidelity check of the SHA-256 embedding against the FIPS 180-4 test
vector for the empty message. -/
theorem hash_pin_empty_vector :
    hash_pin "" = "e3b0c44298fc1c149afbf4c8996fb92427ae41e4649b934ca495991b7852b855" := by decide

/-- Fidelity check of the SHA-256 embedding against the FIPS 180-4 test
vector for "abc". -/
theorem hash_pin_abc_vector :
    hash_pin "abc" = "ba7816bf8f01cfea414140de5dae2223b00361a396177a9cb410ff61f20015ad" := by decide

/-! ### Data model (the three SQLite tables and the upload directory) -/

/-- A row of the `posts` table. -/
structure Post where
  id : String
  username : String
  caption : String
  category : String
  image_url : String
  share_token : String
  pin_hash : Option String
  created_at : String
deriving Repr, DecidableEq

/-- A row of the `ratings` table. -/
structure Rating where
  id : Nat
  post_id : String
  rater_name : String
  score : Int
  created_at : String
deriving Repr, DecidableEq

/-- A row of the `reactions` table. -/
structure Reaction where
  id : Nat
  post_id : String
  emoji : String
  created_at : String
deriving Repr, DecidableEq

/-- The persistent state: the three tables (rows in insertion order, as
SQLite scans them by rowid), the AUTOINCREMENT counters, and the set of
file names present in the `uploads` directory. -/
structure AppState where
  posts : List Post
  ratings : List Rating
  reactions : List Reaction
  nextRatingId : Nat
  nextReactionId : Nat
  files : List String
deriving Repr, DecidableEq

/-- An HTTP response: `ok` with a payload, or `err` with the status code
of the raised `HTTPException`. -/
inductive Res (α : Type) where
  | ok : α → Res α
  | err : Nat → Res α
deriving Repr, DecidableEq

/-- The derived stats dictionary computed by `post_stats`. -/
structure Stats where
  avg_rating : Option Rat
  total_ratings : Nat
  reactions : List (String × Nat)
deriving Repr, DecidableEq

/-- The serialized post object built by `serialize_post`. -/
structure PostView where
  id : String
  username : String
  caption : String
  category : String
  image_url : String
  share_token : String
  created_at : String
  avg_rating : Option Rat
  total_ratings : Nat
  reactions : List (String × Nat)
deriving Repr, DecidableEq

/-- The JSON body returned by `create_post`. -/
structure CreateResp where
  id : String
  share_token : String
  share_url : String
deriving Repr, DecidableEq

/-! ### Helpers -/

/-- `SELECT ... FROM posts WHERE share_token=? OR id=?` with `fetchone()`:
the first row (in table-scan order) matching either column. -/
def findPost (s : AppState) (token : String) : Option Post :=
  s.posts.find? (fun p => p.share_token == token || p.id == token)

/-- The rating rows owned by a post (`WHERE post_id=?`). -/
def ratingsOf (s : AppState) (pid : String) : List Rating :=
  s.ratings.filter (fun r => r.post_id == pid)

/-- The reaction rows owned by a post (`WHERE post_id=?`). -/
def reactionsOf (s : AppState) (pid : String) : List Reaction :=
  s.reactions.filter (fun r => r.post_id == pid)

/-- `GROUP BY emoji` with `COUNT(*)`: each distinct string of `es` paired
with its number of occurrences.  (Python dict comparison is
order-insensitive, so the order of this association list is immaterial;
all claims about it go through `List.lookup`.) -/
def countsOf (es : List String) : List (String × Nat) :=
  es.dedup.map (fun e => (e, es.count e))

/-- Floor of a rational as an integer. -/
def ratFloor (q : Rat) : Int := Int.fdiv q.num (q.den : Int)

/-- Round-half-to-even to the nearest integer (Python's `round`). -/
def rhe (q : Rat) : Int :=
  let n := ratFloor q
  if q - (n : Rat) < (1 : Rat) / 2 then n
  else if (1 : Rat) / 2 < q - (n : Rat) then n + 1
  else if n % 2 = 0 then n else n + 1

/-- Python `round(x, 1)`: round to one decimal place.  Reals are
modelled as exact rationals rather than IEEE doubles. -/
def round1 (q : Rat) : Rat := ((rhe (10 * q) : Int) : Rat) / 10

/-- `post_stats` of src/main.py.  `AVG(score)` is NULL on zero rows, and
the Python truthiness test `if stats["avg"]` also maps an average of 0
to `None` (unreachable for scores constrained to [1,10]). -/
def post_stats (s : AppState) (pid : String) : Stats :=
  let rs := ratingsOf s pid
  let total := rs.length
  let avgOpt : Option Rat :=
    if total = 0 then none else some (((rs.map Rating.score).sum : Rat) / (total : Rat))
  { avg_rating :=
      match avgOpt with
      | none => none
      | some m => if m = 0 then none else some (round1 m)
    total_ratings := total
    reactions := countsOf ((reactionsOf s pid).map Reaction.emoji) }

/-- `serialize_post` of src/main.py: row fields plus the absolute image
URL plus the current derived stats. -/
def serialize_post (s : AppState) (base_url : String) (p : Post) : PostView :=
  { id := p.id
    username := p.username
    caption := p.caption
    category := p.category
    image_url := base_url ++ "/uploads/" ++ p.image_url
    share_token := p.share_token
    created_at := p.created_at
    avg_rating := (post_stats s p.id).avg_rating
    total_ratings := (post_stats s p.id).total_ratings
    reactions := (post_stats s p.id).reactions }

/-- Insert a post into the newest-first order of `ORDER BY created_at DESC`
(insertion sort; any order refining the comparison is a faithful model,
SQLite fixes no tie order). -/
def insertDesc (p : Post) : List Post → List Post
  | [] => [p]
  | q :: r => if q.created_at ≤ p.created_at then p :: q :: r else q :: insertDesc p r

/-- `ORDER BY created_at DESC` over the posts table. -/
def sortDesc : List Post → List Post
  | [] => []
  | p :: r => insertDesc p (sortDesc r)


/-! ### Route handlers -/

/-- The file-name extension logic of `create_post`:
`image.filename.rsplit(".", 1)[-1] if "." in image.filename else "jpg"`. -/
def extOf (filename : String) : String :=
  if filename.contains '.' then (filename.splitOn ".").getLastD "jpg" else "jpg"

/-- The stored `pin_hash` column: `hash_pin(pin) if pin else None`.
Python truthiness makes both `None` and the empty string store NULL. -/
def pinHashOf (pin : Option String) : Option String :=
  match pin with
  | none => none
  | some q => if q = "" then none else some (hash_pin q)

/-- `create_post` (POST /fits) of src/main.py.  The generated uuid4 post
id, the 8-character share token and `datetime.utcnow()` are passed as
the explicit parameters `post_id`, `share_token`, `now`.  The image file
is written before the INSERT runs; a PRIMARY KEY or UNIQUE violation on
the insert is an unhandled `sqlite3.IntegrityError`, i.e. a generic
HTTP 500, with the file already on disk. -/
def create_post (s : AppState) (username caption category : String)
    (pin : Option String) (imageContentType imageFilename : String)
    (post_id share_token now : String) : Res CreateResp × AppState :=
  if ¬ imageContentType.startsWith "image/" then (.err 400, s)
  else
    let filename := post_id ++ "." ++ extOf imageFilename
    let files' := if s.files.contains filename then s.files else s.files ++ [filename]
    if s.posts.any (fun q => q.id == post_id) || s.posts.any (fun q => q.share_token == share_token) then
      (.err 500, { s with files := files' })
    else
      (.ok ⟨post_id, share_token, "/rate/" ++ share_token⟩,
       { s with files := files',
                posts := s.posts ++
                  [⟨post_id, username, caption, category, filename, share_token, pinHashOf pin, now⟩] })

/-- `get_posts` (GET /fits) of src/main.py: every post, newest first,
serialized with current stats. -/
def get_posts (s : AppState) (base_url : String) : List PostView :=
  (sortDesc s.posts).map (serialize_post s base_url)

/-- `get_post` (GET /fits/{token}) of src/main.py. -/
def get_post (s : AppState) (token : String) (base_url : String) : Res PostView :=
  match findPost s token with
  | none => .err 404
  | some p => .ok (serialize_post s base_url p)

/-- `rate_post` (POST /fits/{token}/rate) of src/main.py.  The score is
validated before the token is resolved; on success one rating row is
inserted and the stats are recomputed after the insert. -/
def rate_post (s : AppState) (token : String) (score : Int) (rater_name now : String) :
    Res Stats × AppState :=
  if ¬ (1 ≤ score ∧ score ≤ 10) then (.err 400, s)
  else
    match findPost s token with
    | none => (.err 404, s)
    | some p =>
      let s' := { s with
        ratings := s.ratings ++ [⟨s.nextRatingId, p.id, rater_name, score, now⟩],
        nextRatingId := s.nextRatingId + 1 }
      (.ok (post_stats s' p.id), s')

/-- `react_post` (POST /fits/{token}/react) of src/main.py: inserts one
reaction row and returns the updated emoji-count mapping. -/
def react_post (s : AppState) (token : String) (emoji now : String) :
    Res (List (String × Nat)) × AppState :=
  match findPost s token with
  | none => (.err 404, s)
  | some p =>
    let s' := { s with
      reactions := s.reactions ++ [⟨s.nextReactionId, p.id, emoji, now⟩],
      nextReactionId := s.nextReactionId + 1 }
    (.ok ((post_stats s' p.id).reactions), s')

/-- The PIN gate of `delete_post`:
`if post["pin_hash"]: if not pin or hash_pin(pin) != post["pin_hash"]: 403`.
Python truthiness: a NULL (or empty) stored hash skips the check, and a
missing or empty supplied PIN counts as absent. -/
def pinAccepted (stored : Option String) (pin : Option String) : Bool :=
  match stored with
  | none => true
  | some h =>
    if h = "" then true
    else
      match pin with
      | none => false
      | some q => if q = "" then false else hash_pin q == h

/-- `delete_post` (DELETE /fits/{token}) of src/main.py.  On success the
image file is removed (tolerating absence) and the post row is deleted.
The rating and reaction rows are NOT removed: the schema declares
`ON DELETE CASCADE`, but Python's sqlite3 driver never executes
`PRAGMA foreign_keys = ON`, so SQLite does not enforce foreign keys and
the child rows stay behind, orphaned. -/
def delete_post (s : AppState) (token : String) (pin : Option String) :
    Res String × AppState :=
  match findPost s token with
  | none => (.err 404, s)
  | some p =>
    if pinAccepted p.pin_hash pin then
      (.ok "Post deleted ✨",
       { s with
         files := s.files.filter (fun f => f != p.image_url),
         posts := s.posts.filter (fun q => q.id != p.id) })
    else (.err 403, s)

/-- The empty state produced by `init_db` on a fresh database
(AUTOINCREMENT counters start at 1). -/
def initState : AppState := ⟨[], [], [], 1, 1, []⟩

/-- The states reachable from a fresh database by any sequence of the
four mutating handlers, with arbitrary request parameters. -/
inductive Reachable : AppState → Prop where
  | init : Reachable initState
  | create (s : AppState) (u c cat : String) (pin : Option String) (ct fn pid tok now : String) :
      Reachable s → Reachable (create_post s u c cat pin ct fn pid tok now).2
  | rate (s : AppState) (tok : String) (sc : Int) (rn now : String) :
      Reachable s → Reachable (rate_post s tok sc rn now).2
  | react (s : AppState) (tok emoji now : String) :
      Reachable s → Reachable (react_post s tok emoji now).2
  | del (s : AppState) (tok : String) (pin : Option String) :
      Reachable s → Reachable (delete_post s tok pin).2

/-! ### Well-formedness (the schema constraints and uuid properties) -/

/-- The `id TEXT PRIMARY KEY` constraint: pairwise distinct post ids. -/
def IdsDistinct (s : AppState) : Prop :=
  s.posts.Pairwise (fun p q => p.id ≠ q.id)

/-- The `share_token TEXT UNIQUE` constraint: pairwise distinct tokens. -/
def TokensDistinct (s : AppState) : Prop :=
  s.posts.Pairwise (fun p q => p.share_token ≠ q.share_token)

/-- No post id collides with any share token.  Holds in reality because
ids are 36-character uuid4 strings while tokens are 8 characters (the
spec: the two are drawn from disjoint uniqueness domains). -/
def CrossDistinct (s : AppState) : Prop :=
  ∀ p ∈ s.posts, ∀ q ∈ s.posts, p.id ≠ q.share_token

/-- Well-formed stored state. -/
def WF (s : AppState) : Prop := IdsDistinct s ∧ TokensDistinct s ∧ CrossDistinct s

/-! ### Generic helper lemmas -/

theorem find_of_unique {α : Type} (pred : α → Bool) {l : List α} {p : α}
    (hmem : p ∈ l) (hp : pred p = true)
    (huniq : ∀ q ∈ l, pred q = true → q = p) : l.find? pred = some p := by
  induction l with
  | nil => cases hmem
  | cons x xs ih =>
    by_cases hx : pred x = true
    · have : x = p := huniq x (List.mem_cons_self x xs) hx
      subst this
      simp [List.find?, hx]
    · have hxp : x ≠ p := fun h => hx (h ▸ hp)
      have hmem' : p ∈ xs := by
        rcases List.mem_cons.mp hmem with h | h
        · exact absurd h.symm hxp
        · exact h
      have := ih hmem' (fun q hq => huniq q (List.mem_cons_of_mem x hq))
      simp [List.find?, hx, this]

theorem pairwise_ne_eq {α : Type} {f : α → String} {l : List α}
    (h : l.Pairwise (fun p q => f p ≠ f q)) {p q : α}
    (hp : p ∈ l) (hq : q ∈ l) (hf : f p = f q) : p = q := by
  by_contra hne
  have hsymm : Symmetric (fun p q : α => f p ≠ f q) := fun a b hab => fun e => hab e.symm
  exact h.forall hsymm hp hq hne hf

/-- With the uniqueness constraints, looking a post up by its share
token finds exactly that post. -/
theorem findPost_by_token {s : AppState} {p : Post} (hwf : WF s) (hp : p ∈ s.posts) :
    findPost s p.share_token = some p := by
  obtain ⟨hids, htoks, hcross⟩ := hwf
  apply find_of_unique _ hp
  · simp
  · intro q hq hmatch
    simp only [Bool.or_eq_true, beq_iff_eq] at hmatch
    rcases hmatch with h | h
    · exact pairwise_ne_eq htoks hq hp h
    · exact absurd h (hcross q hq p hp)

/-- With the uniqueness constraints, looking a post up by its raw id
finds exactly that post. -/
theorem findPost_by_id {s : AppState} {p : Post} (hwf : WF s) (hp : p ∈ s.posts) :
    findPost s p.id = some p := by
  obtain ⟨hids, htoks, hcross⟩ := hwf
  apply find_of_unique _ hp
  · simp
  · intro q hq hmatch
    simp only [Bool.or_eq_true, beq_iff_eq] at hmatch
    rcases hmatch with h | h
    · exact absurd h.symm (hcross p hp q hq)
    · exact pairwise_ne_eq hids hq hp h

/-- If no post matches the token, the lookup fails. -/
theorem findPost_none {s : AppState} {token : String}
    (h : ∀ p ∈ s.posts, p.share_token ≠ token ∧ p.id ≠ token) :
    findPost s token = none := by
  apply List.find?_eq_none.mpr
  intro p hp
  simp only [Bool.or_eq_true, beq_iff_eq, not_or]
  exact (h p hp)

/-- Association-list lookup in a `(key, f key)` table built over a list. -/
theorem lookup_map_self (l : List String) (f : String → Nat) (e : String) :
    ((l.map (fun x => (x, f x))).lookup e) = if e ∈ l then some (f e) else none := by
  induction l with
  | nil => simp [List.lookup]
  | cons x xs ih =>
    by_cases hx : e = x
    · subst hx
      simp [List.lookup]
    · simp [List.lookup, beq_eq_false_iff_ne.mpr hx, ih, hx]

/-- `countsOf` realises the emoji-count mapping: looking an emoji up
yields its occurrence count, and only occurring emojis are present. -/
theorem lookup_countsOf (es : List String) (e : String) :
    (countsOf es).lookup e = if es.count e = 0 then none else some (es.count e) := by
  unfold countsOf
  rw [lookup_map_self]
  by_cases he : e ∈ es
  · simp [List.mem_dedup.mpr he, List.count_eq_zero.mpr, he,
      Nat.pos_iff_ne_zero.mp (List.count_pos_iff.mpr he)]
  · simp [he, List.count_eq_zero.mpr he, fun h => he (List.mem_dedup.mp h)]

/-- A list of integers that are all at least 1 sums to at least its length. -/
theorem length_le_sum_of_one_le {l : List Int} (h : ∀ x ∈ l, 1 ≤ x) :
    (l.length : Int) ≤ l.sum := by
  induction l with
  | nil => simp
  | cons x xs ih =>
    simp only [List.length_cons, List.sum_cons]
    have hx := h x (List.mem_cons_self x xs)
    have := ih (fun y hy => h y (List.mem_cons_of_mem x hy))
    push_cast
    omega

/-! ### Insertion-sort lemmas for `ORDER BY created_at DESC` -/

theorem insertDesc_perm (p : Post) (l : List Post) : List.Perm (insertDesc p l) (p :: l) := by
  induction l with
  | nil => simp [insertDesc]
  | cons q r ih =>
    by_cases hle : q.created_at ≤ p.created_at
    · simp [insertDesc, hle]
    · simp only [insertDesc, if_neg hle]
      exact (ih.cons q).trans (List.Perm.swap p q r)

theorem sortDesc_perm (l : List Post) : List.Perm (sortDesc l) l := by
  induction l with
  | nil => simp [sortDesc]
  | cons p r ih => exact (insertDesc_perm p (sortDesc r)).trans (ih.cons p)

theorem mem_insertDesc {x p : Post} {l : List Post} :
    x ∈ insertDesc p l ↔ x = p ∨ x ∈ l := by
  induction l with
  | nil => simp [insertDesc]
  | cons q r ih =>
    by_cases hle : q.created_at ≤ p.created_at
    · simp [insertDesc, hle]
    · simp only [insertDesc, if_neg hle, List.mem_cons, ih]
      tauto

theorem pairwise_insertDesc {p : Post} {l : List Post}
    (h : l.Pairwise (fun a b => b.created_at ≤ a.created_at)) :
    (insertDesc p l).Pairwise (fun a b => b.created_at ≤ a.created_at) := by
  induction l with
  | nil => simp [insertDesc]
  | cons q r ih =>
    rcases List.pairwise_cons.mp h with ⟨hq, hr⟩
    by_cases hle : q.created_at ≤ p.created_at
    · rw [insertDesc, if_pos hle]
      refine List.pairwise_cons.mpr ⟨?_, h⟩
      intro x hx
      rcases List.mem_cons.mp hx with h1 | h1
      · exact h1 ▸ hle
      · exact le_trans (hq x h1) hle
    · rw [insertDesc, if_neg hle]
      refine List.pairwise_cons.mpr ⟨?_, ih hr⟩
      intro x hx
      rcases mem_insertDesc.mp hx with h1 | h1
      · exact h1 ▸ le_of_not_le hle
      · exact hq x h1

theorem pairwise_sortDesc (l : List Post) :
    (sortDesc l).Pairwise (fun a b => b.created_at ≤ a.created_at) := by
  induction l with
  | nil => simp [sortDesc]
  | cons p r ih => exact pairwise_insertDesc ih

/-! ### SHA-256 digests are never empty strings -/

theorem toHex8_data (n : Nat) :
    (toHex8 n).data = (List.range 8).map (fun i => hexChar ((n >>> (28 - 4 * i)) % 16)) := rfl

theorem concatAll_toHex8_ne (w : Nat) (l : List Nat) :
    concatAll ((w :: l).map toHex8) ≠ "" := by
  intro h
  have h0 : (concatAll ((w :: l).map toHex8)).data = [] := by rw [h]
  rw [List.map_cons, concatAll, String.data_append, toHex8_data] at h0
  simp [List.range_succ] at h0

/-- The hex digest of SHA-256 is a 64-character string, in particular
never empty — so a stored `pin_hash` is always truthy in Python. -/
theorem hash_pin_ne (p : String) : hash_pin p ≠ "" := by
  have hsha : ∃ w l, sha256words (strBytes p) = w :: l := ⟨_, _, rfl⟩
  obtain ⟨w, l, hw⟩ := hsha
  rw [hash_pin, hw]
  exact concatAll_toHex8_ne w l

/-! ### Characterisation of `post_stats` -/

theorem post_stats_total (s : AppState) (pid : String) :
    (post_stats s pid).total_ratings = (ratingsOf s pid).length := rfl

/-- With at least one rating row whose scores satisfy the [1,10] CHECK
constraint, the average is the rounded arithmetic mean (never nulled by
the Python truthiness test, because the mean is at least 1). -/
theorem post_stats_avg {s : AppState} {pid : String}
    (hne : ratingsOf s pid ≠ [])
    (hpos : ∀ r ∈ ratingsOf s pid, 1 ≤ r.score) :
    (post_stats s pid).avg_rating =
      some (round1 ((((ratingsOf s pid).map Rating.score).sum : Rat) /
        (((ratingsOf s pid).length : Nat) : Rat))) := by
  have hlen : 0 < (ratingsOf s pid).length := List.length_pos.mpr hne
  have hsum : (((ratingsOf s pid).length : Nat) : Int) ≤ ((ratingsOf s pid).map Rating.score).sum := by
    have h1 : ∀ x ∈ (ratingsOf s pid).map Rating.score, (1 : Int) ≤ x := by
      intro x hx
      rcases List.mem_map.mp hx with ⟨r, hr, hrx⟩
      exact hrx ▸ hpos r hr
    simpa using length_le_sum_of_one_le h1
  have hq : (0 : Rat) < (((ratingsOf s pid).map Rating.score).sum : Rat) /
      (((ratingsOf s pid).length : Nat) : Rat) := by
    apply div_pos
    · have h1 : (0 : Int) < ((ratingsOf s pid).map Rating.score).sum :=
        lt_of_lt_of_le (by exact_mod_cast hlen) hsum
      exact_mod_cast h1
    · exact_mod_cast hlen
  have h0 : ¬ ((ratingsOf s pid).length = 0) := Nat.pos_iff_ne_zero.mp hlen
  unfold post_stats
  simp only [if_neg h0, if_neg hq.ne']

/-- The average is null exactly on zero ratings (scores obeying the
CHECK constraint). -/
theorem post_stats_avg_none_iff {s : AppState} {pid : String}
    (hpos : ∀ r ∈ ratingsOf s pid, 1 ≤ r.score) :
    ((post_stats s pid).avg_rating = none ↔ (ratingsOf s pid).length = 0) := by
  constructor
  · intro h
    by_contra hlen
    have hne : ratingsOf s pid ≠ [] := fun he => hlen (he ▸ rfl)
    rw [post_stats_avg hne hpos] at h
    cases h
  · intro h
    unfold post_stats
    simp [h]

/-! ### Concrete fixtures used by witnesses and counterexamples -/

/-- A post protected by PIN "1234". -/
def P1 : Post :=
  ⟨"11111111-aaaa-bbbb-cccc-000000000001", "alice", "day one", "fit",
   "11111111-aaaa-bbbb-cccc-000000000001.jpg", "tok1aaaa", some (hash_pin "1234"),
   "2024-01-01T00:00:00"⟩

/-- A post created without a PIN. -/
def P2 : Post :=
  ⟨"22222222-aaaa-bbbb-cccc-000000000002", "bob", "", "other",
   "22222222-aaaa-bbbb-cccc-000000000002.jpg", "tok2bbbb", none,
   "2024-01-02T00:00:00"⟩

/-- Two posts, no ratings or reactions yet. -/
def S1 : AppState :=
  ⟨[P1, P2], [], [], 1, 1,
   ["11111111-aaaa-bbbb-cccc-000000000001.jpg", "22222222-aaaa-bbbb-cccc-000000000002.jpg"]⟩

/-- The spec's worked example: one post rated [8,6,10] and reacted to
with "🔥" twice and "😍" once. -/
def S4 : AppState :=
  ⟨[P2],
   [⟨1, "22222222-aaaa-bbbb-cccc-000000000002", "Anonymous", 8, "t1"⟩,
    ⟨2, "22222222-aaaa-bbbb-cccc-000000000002", "Anonymous", 6, "t2"⟩,
    ⟨3, "22222222-aaaa-bbbb-cccc-000000000002", "Anonymous", 10, "t3"⟩],
   [⟨1, "22222222-aaaa-bbbb-cccc-000000000002", "🔥", "t4"⟩,
    ⟨2, "22222222-aaaa-bbbb-cccc-000000000002", "🔥", "t5"⟩,
    ⟨3, "22222222-aaaa-bbbb-cccc-000000000002", "😍", "t6"⟩],
   4, 4, ["22222222-aaaa-bbbb-cccc-000000000002.jpg"]⟩

/-- One post owning one rating and one reaction. -/
def S7 : AppState :=
  ⟨[P2],
   [⟨1, "22222222-aaaa-bbbb-cccc-000000000002", "Anonymous", 8, "t1"⟩],
   [⟨1, "22222222-aaaa-bbbb-cccc-000000000002", "🔥", "t2"⟩],
   2, 2, ["22222222-aaaa-bbbb-cccc-000000000002.jpg"]⟩

/-! ### Claim theorems -/

-- Batteries marks the rational-number operations irreducible; unseal
-- them so concrete rational arithmetic evaluates under `decide`.
unseal Rat.mul Rat.inv Rat.add Rat.sub

/-- C2: for every integer score outside [1,10], rating submission
returns the 400 client error and the whole stored state — posts,
ratings, reactions, files — is unchanged, whether or not the token
resolves to a post (the score is validated first). -/
theorem rate_score_invalid_rejected (s : AppState) (token : String) (score : Int)
    (rater_name now : String) (h : score < 1 ∨ 10 < score) :
    rate_post s token score rater_name now = (Res.err 400, s) := by
  have hc : ¬ (1 ≤ score ∧ score ≤ 10) := by omega
  simp [rate_post, hc]

/-- Witness for C2 at score 0 on a populated state. -/
theorem rate_score_invalid_rejected_witness :
    rate_post S1 "tok2bbbb" 0 "Anonymous" "t9" = (Res.err 400, S1) :=
  rate_score_invalid_rejected S1 "tok2bbbb" 0 "Anonymous" "t9" (Or.inl (by decide))

/-- C3: for every in-range score and every token resolving to a post,
rating submission succeeds, appends exactly one rating row (owned by
that post), leaves posts and reactions untouched, and the returned
`total_ratings` is the post's previous rating count plus exactly 1. -/
theorem rate_valid_inserts_one (s : AppState) (token : String) (score : Int)
    (rater_name now : String) (p : Post)
    (h1 : 1 ≤ score) (h2 : score ≤ 10) (hfind : findPost s token = some p) :
    (rate_post s token score rater_name now).1 =
      Res.ok (post_stats (rate_post s token score rater_name now).2 p.id) ∧
    (rate_post s token score rater_name now).2.ratings =
      s.ratings ++ [⟨s.nextRatingId, p.id, rater_name, score, now⟩] ∧
    ratingsOf (rate_post s token score rater_name now).2 p.id =
      ratingsOf s p.id ++ [⟨s.nextRatingId, p.id, rater_name, score, now⟩] ∧
    (post_stats (rate_post s token score rater_name now).2 p.id).total_ratings =
      (post_stats s p.id).total_ratings + 1 ∧
    (rate_post s token score rater_name now).2.posts = s.posts ∧
    (rate_post s token score rater_name now).2.reactions = s.reactions := by
  have hstep : rate_post s token score rater_name now =
      (Res.ok (post_stats { s with
          ratings := s.ratings ++ [⟨s.nextRatingId, p.id, rater_name, score, now⟩],
          nextRatingId := s.nextRatingId + 1 } p.id),
        { s with
          ratings := s.ratings ++ [⟨s.nextRatingId, p.id, rater_name, score, now⟩],
          nextRatingId := s.nextRatingId + 1 }) := by
    simp only [rate_post, hfind]
    rw [if_neg (not_not_intro ⟨h1, h2⟩)]
  rw [hstep]
  refine ⟨rfl, rfl, ?_, ?_, rfl, rfl⟩
  · simp [ratingsOf, List.filter_append]
  · simp [post_stats_total, ratingsOf, List.filter_append]

/-- Witness for C3: rating the PIN-less post of `S1` with score 7. -/
theorem rate_valid_inserts_one_witness :
    (post_stats (rate_post S1 "tok2bbbb" 7 "carol" "t9").2 P2.id).total_ratings =
      (post_stats S1 P2.id).total_ratings + 1 :=
  (rate_valid_inserts_one S1 "tok2bbbb" 7 "carol" "t9" P2
    (by decide) (by decide) (by decide)).2.2.2.1

/-- C4: the derived stats of a post — `avg_rating` is null exactly when
the post has zero ratings (scores obeying the schema's [1,10] CHECK
constraint) and otherwise the arithmetic mean of its scores rounded to
one decimal; `total_ratings` is the number of its rating rows; the
reaction mapping sends each emoji to its occurrence count (and contains
only occurring emojis).  The final conjuncts are the spec's worked
example: scores [8,6,10] give avg 8.0 and total 3, reactions 🔥🔥😍
give the mapping 🔥 ↦ 2, 😍 ↦ 1. -/
theorem post_stats_spec (s : AppState) (pid : String)
    (hpos : ∀ r ∈ ratingsOf s pid, 1 ≤ r.score) :
    ((post_stats s pid).avg_rating = none ↔ (ratingsOf s pid).length = 0) ∧
    (ratingsOf s pid ≠ [] →
      (post_stats s pid).avg_rating =
        some (round1 ((((ratingsOf s pid).map Rating.score).sum : Rat) /
          (((ratingsOf s pid).length : Nat) : Rat)))) ∧
    (post_stats s pid).total_ratings = (ratingsOf s pid).length ∧
    (∀ e : String, (post_stats s pid).reactions.lookup e =
      (if ((reactionsOf s pid).map Reaction.emoji).count e = 0 then none
       else some (((reactionsOf s pid).map Reaction.emoji).count e))) ∧
    post_stats S4 "22222222-aaaa-bbbb-cccc-000000000002" =
      ⟨some 8, 3, [("🔥", 2), ("😍", 1)]⟩ := by
  refine ⟨post_stats_avg_none_iff hpos, fun hne => post_stats_avg hne hpos,
    post_stats_total s pid, fun e => lookup_countsOf _ e, by decide⟩

/-- Witness for C4 on the worked example state. -/
theorem post_stats_spec_witness :
    post_stats S4 "22222222-aaaa-bbbb-cccc-000000000002" =
      ⟨some 8, 3, [("🔥", 2), ("😍", 1)]⟩ :=
  (post_stats_spec S4 "22222222-aaaa-bbbb-cccc-000000000002" (by decide)).2.2.2.2

/-- C5: retrieving an existing post by its share token and by its raw
post id return the same representation (all fields and the same derived
stats), for the same base URL and unchanged state.  Well-formedness is
the schema's PRIMARY KEY and UNIQUE constraints plus the disjointness
of the 36-character uuid domain and the 8-character token domain. -/
theorem get_by_token_eq_get_by_id (s : AppState) (base_url : String) (p : Post)
    (hwf : WF s) (hp : p ∈ s.posts) :
    get_post s p.share_token base_url = get_post s p.id base_url ∧
    get_post s p.share_token base_url = Res.ok (serialize_post s base_url p) := by
  have h1 := findPost_by_token hwf hp
  have h2 := findPost_by_id hwf hp
  constructor <;> simp [get_post, h1, h2]

/-- Witness for C5 on the two-post state, PIN-protected post. -/
theorem get_by_token_eq_get_by_id_witness :
    get_post S1 P1.share_token "http://localhost:8000" =
      get_post S1 P1.id "http://localhost:8000" :=
  (get_by_token_eq_get_by_id S1 "http://localhost:8000" P1
    (by unfold WF IdsDistinct TokensDistinct CrossDistinct; decide) (by decide)).1

/-- Counterexample to C6 as stated: for a token that resolves to no
post, rating submission with an out-of-range score returns 400, not
404, because the score is validated before the token is resolved. -/
theorem rate_unresolved_counterexample :
    findPost initState "ghost" = none ∧
    (rate_post initState "ghost" 0 "Anonymous" "t0").1 = Res.err 400 ∧
    (rate_post initState "ghost" 0 "Anonymous" "t0").1 ≠ Res.err 404 := by decide

/-- C6 (amended): for a token that resolves to no post, rating
submission with an in-range score and reaction submission both return
404 and leave the entire stored state unchanged; rating submission with
an out-of-range score also writes nothing but returns 400. -/
theorem unresolved_token_404 (s : AppState) (token : String)
    (h : ∀ p ∈ s.posts, p.share_token ≠ token ∧ p.id ≠ token) :
    (∀ score : Int, 1 ≤ score → score ≤ 10 → ∀ rater_name now,
      rate_post s token score rater_name now = (Res.err 404, s)) ∧
    (∀ emoji now, react_post s token emoji now = (Res.err 404, s)) ∧
    (∀ score : Int, score < 1 ∨ 10 < score → ∀ rater_name now,
      rate_post s token score rater_name now = (Res.err 400, s)) := by
  have hf := findPost_none h
  refine ⟨?_, ?_, ?_⟩
  · intro score hs1 hs2 rater_name now
    simp only [rate_post, hf]
    rw [if_neg (not_not_intro ⟨hs1, hs2⟩)]
  · intro emoji now
    simp [react_post, hf]
  · intro score hs rater_name now
    have hc : ¬ (1 ≤ score ∧ score ≤ 10) := by omega
    simp [rate_post, hc]

/-- Witness for the amended C6 on the empty state. -/
theorem unresolved_token_404_witness :
    react_post initState "ghost" "🔥" "t0" = (Res.err 404, initState) :=
  (unresolved_token_404 initState "ghost" (by decide)).2.1 "🔥" "t0"

/-- The deterministic shape of `delete_post` once the token resolves:
the PIN gate decides between deletion and 403. -/
theorem delete_post_eq {s : AppState} {token : String} {p : Post}
    (hfind : findPost s token = some p) (pin : Option String) :
    delete_post s token pin =
      if pinAccepted p.pin_hash pin then
        (Res.ok "Post deleted ✨",
         { s with
           files := s.files.filter (fun f => f != p.image_url),
           posts := s.posts.filter (fun q => q.id != p.id) })
      else (Res.err 403, s) := by
  simp only [delete_post, hfind]

/-- C1: for a post resolved by the token — if its stored `pin_hash` is
NULL, deletion succeeds with any supplied PIN and with none at all; if
a hash is stored (a SHA-256 hex digest, hence nonempty), deletion
succeeds exactly when a nonempty PIN is supplied whose SHA-256 hex
digest equals the stored hash byte for byte (per the Python truthiness
of `not pin`, supplying the empty string counts as supplying no PIN),
and for any non-matching or absent PIN it returns 403 with the entire
state — the post, its image file, its ratings and its reactions —
unchanged. -/
theorem delete_pin_auth (s : AppState) (token : String) (p : Post)
    (hfind : findPost s token = some p) :
    (p.pin_hash = none → ∀ pin, (delete_post s token pin).1 = Res.ok "Post deleted ✨") ∧
    (∀ h, p.pin_hash = some h → h ≠ "" →
      ((∀ pin, (delete_post s token pin).1 = Res.ok "Post deleted ✨" ↔
          ∃ q, pin = some q ∧ q ≠ "" ∧ hash_pin q = h) ∧
       (∀ pin, (∀ q, pin = some q → q = "" ∨ hash_pin q ≠ h) →
          delete_post s token pin = (Res.err 403, s)))) := by
  constructor
  · intro hnone pin
    rw [delete_post_eq hfind pin]
    simp [pinAccepted, hnone]
  · intro h hsome hne
    have hacc : ∀ pin : Option String, pinAccepted p.pin_hash pin = true ↔
        ∃ q, pin = some q ∧ q ≠ "" ∧ hash_pin q = h := by
      intro pin
      cases pin with
      | none => simp [pinAccepted, hsome, hne]
      | some q =>
        by_cases hq : q = ""
        · subst hq
          simp [pinAccepted, hsome, hne]
        · simp [pinAccepted, hsome, hne, hq]
    constructor
    · intro pin
      rw [delete_post_eq hfind pin]
      cases hb : pinAccepted p.pin_hash pin
      · rw [if_neg (by simp [hb])]
        simp only [iff_iff_implies_and_implies]
        constructor
        · intro hk
          cases hk
        · intro hex
          have := (hacc pin).mpr hex
          rw [hb] at this
          cases this
      · rw [if_pos (by simp [hb])]
        simpa using (hacc pin).mp hb
    · intro pin hno
      have hb : pinAccepted p.pin_hash pin = false := by
        cases pin with
        | none => simp [pinAccepted, hsome, hne]
        | some q =>
          rcases hno q rfl with hq | hq
          · subst hq
            simp [pinAccepted, hsome, hne]
          · simp [pinAccepted, hsome, hne, hq]
      rw [delete_post_eq hfind pin, if_neg (by simp [hb])]

/-- Witness for C1: deleting the PIN-protected post with a wrong PIN is
forbidden and changes nothing. -/
theorem delete_pin_auth_witness :
    delete_post S1 "tok1aaaa" (some "9999") = (Res.err 403, S1) := by
  refine ((delete_pin_auth S1 "tok1aaaa" P1 (by decide)).2 (hash_pin "1234") rfl
    (by decide)).2 (some "9999") ?_
  intro q hq
  injection hq with hq'
  subst hq'
  exact Or.inr (by decide)

/-- C10: a post created with an empty-string PIN is stored exactly as if
no PIN had been supplied (`hash_pin(pin) if pin else None` is falsy on
""), in particular its `pin_hash` is NULL and it is deletable without a
PIN; conversely, supplying the empty string as the PIN to delete a post
whose stored hash is nonempty is treated as an absent PIN and yields
403 with the state unchanged. -/
theorem empty_pin_truthiness :
    pinHashOf (some "") = none ∧
    (∀ s u c cat ct fn pid tok now,
      create_post s u c cat (some "") ct fn pid tok now =
        create_post s u c cat none ct fn pid tok now) ∧
    (∀ s token p h, findPost s token = some p → p.pin_hash = some h → h ≠ "" →
      delete_post s token (some "") = (Res.err 403, s)) := by
  refine ⟨rfl, ?_, ?_⟩
  · intro s u c cat ct fn pid tok now
    simp [create_post, pinHashOf]
  · intro s token p h hfind hsome hne
    have hb : pinAccepted p.pin_hash (some "") = false := by
      simp [pinAccepted, hsome, hne]
    rw [delete_post_eq hfind (some ""), if_neg (by simp [hb])]

/-- Witness for C10: the empty PIN is rejected on the protected post. -/
theorem empty_pin_truthiness_witness :
    delete_post S1 "tok1aaaa" (some "") = (Res.err 403, S1) :=
  empty_pin_truthiness.2.2 S1 "tok1aaaa" P1 (hash_pin "1234") (by decide) rfl (by decide)

/-- C7 (the code, not the claim): deleting the post succeeds, its image
file is gone from the upload directory, and retrieval by share token or
by id afterwards returns 404 — but the post's rating row and reaction
row are still present afterwards, orphaned, because Python's sqlite3
driver never enables `PRAGMA foreign_keys`, so the schema's
`ON DELETE CASCADE` clauses are not enforced.  This refutes the part of
the claim that says deletion removes every rating and reaction row. -/
theorem delete_cascade_bug :
    (delete_post S7 "tok2bbbb" none).1 = Res.ok "Post deleted ✨" ∧
    (delete_post S7 "tok2bbbb" none).2.files = [] ∧
    get_post (delete_post S7 "tok2bbbb" none).2 "tok2bbbb" "http://localhost:8000" =
      Res.err 404 ∧
    get_post (delete_post S7 "tok2bbbb" none).2 "22222222-aaaa-bbbb-cccc-000000000002"
      "http://localhost:8000" = Res.err 404 ∧
    (delete_post S7 "tok2bbbb" none).2.ratings =
      [⟨1, "22222222-aaaa-bbbb-cccc-000000000002", "Anonymous", 8, "t1"⟩] ∧
    (delete_post S7 "tok2bbbb" none).2.reactions =
      [⟨1, "22222222-aaaa-bbbb-cccc-000000000002", "🔥", "t2"⟩] := by decide

/-- C8: the listing returns exactly the stored posts — some ordering of
them (each exactly once) that is sorted newest-first by creation
timestamp — each serialized with its current derived stats. -/
theorem list_posts_ordered_complete (s : AppState) (base_url : String) :
    ∃ ord : List Post, List.Perm ord s.posts ∧
      ord.Pairwise (fun a b => b.created_at ≤ a.created_at) ∧
      get_posts s base_url = ord.map (serialize_post s base_url) :=
  ⟨sortDesc s.posts, sortDesc_perm s.posts, pairwise_sortDesc s.posts, rfl⟩

/-! ### Shape lemmas for the reachability invariant (C9) -/

theorem rate_post_posts (s : AppState) (token : String) (score : Int)
    (rater_name now : String) :
    (rate_post s token score rater_name now).2.posts = s.posts := by
  unfold rate_post
  split
  · rfl
  · cases hf : findPost s token <;> simp [hf]

theorem react_post_posts (s : AppState) (token emoji now : String) :
    (react_post s token emoji now).2.posts = s.posts := by
  unfold react_post
  cases hf : findPost s token <;> simp [hf]

theorem delete_post_posts (s : AppState) (token : String) (pin : Option String) :
    (delete_post s token pin).2.posts = s.posts ∨
    ∃ p : Post, (delete_post s token pin).2.posts = s.posts.filter (fun q => q.id != p.id) := by
  unfold delete_post
  cases hf : findPost s token with
  | none => left; rfl
  | some p =>
    cases hb : pinAccepted p.pin_hash pin
    · left; simp [hb]
    · right
      refine ⟨p, ?_⟩
      simp [hb]

theorem create_post_posts (s : AppState) (u c cat : String) (pin : Option String)
    (ct fn pid tok now : String) :
    (create_post s u c cat pin ct fn pid tok now).2.posts = s.posts ∨
    ((∀ q ∈ s.posts, q.id ≠ pid) ∧ (∀ q ∈ s.posts, q.share_token ≠ tok) ∧
      (create_post s u c cat pin ct fn pid tok now).2.posts =
        s.posts ++ [⟨pid, u, c, cat, pid ++ "." ++ extOf fn, tok, pinHashOf pin, now⟩]) := by
  unfold create_post
  by_cases hct : ¬ String.startsWith ct "image/"
  · left; simp [hct]
  · rw [if_neg (not_not_intro (not_not.mp hct))]
    by_cases hdup : (s.posts.any (fun q => q.id == pid) || s.posts.any (fun q => q.share_token == tok)) = true
    · left; simp [hdup]
    · right
      have hdup2 := hdup
      simp only [Bool.or_eq_true, List.any_eq_true, beq_iff_eq, not_or, not_exists, not_and] at hdup2
      refine ⟨fun q hq => hdup2.1 q hq, fun q hq => hdup2.2 q hq, ?_⟩
      rw [if_neg hdup]

/-- C9: in every state reachable from a fresh database by any sequence
of create / rate / react / delete requests, the post ids are pairwise
distinct and the share tokens are pairwise distinct — each operation
preserves the uniqueness guaranteed by the PRIMARY KEY and UNIQUE
constraints (a create colliding on either column is rejected by the
database and inserts nothing). -/
theorem reachable_ids_tokens_distinct (s : AppState) (hr : Reachable s) :
    IdsDistinct s ∧ TokensDistinct s := by
  induction hr with
  | init => exact ⟨List.Pairwise.nil, List.Pairwise.nil⟩
  | create s u c cat pin ct fn pid tok now hr ih =>
    rcases create_post_posts s u c cat pin ct fn pid tok now with h | ⟨hid, htok, h⟩
    · unfold IdsDistinct TokensDistinct at ih ⊢
      rw [h]
      exact ih
    · unfold IdsDistinct TokensDistinct at ih ⊢
      rw [h]
      constructor
      · refine List.pairwise_append.mpr ⟨ih.1, List.pairwise_singleton _ _, ?_⟩
        intro a ha b hb
        rw [List.mem_singleton.mp hb]
        exact hid a ha
      · refine List.pairwise_append.mpr ⟨ih.2, List.pairwise_singleton _ _, ?_⟩
        intro a ha b hb
        rw [List.mem_singleton.mp hb]
        exact htok a ha
  | rate s tok sc rn now hr ih =>
    unfold IdsDistinct TokensDistinct at ih ⊢
    rw [rate_post_posts]
    exact ih
  | react s tok emoji now hr ih =>
    unfold IdsDistinct TokensDistinct at ih ⊢
    rw [react_post_posts]
    exact ih
  | del s tok pin hr ih =>
    rcases delete_post_posts s tok pin with h | ⟨p, h⟩
    · unfold IdsDistinct TokensDistinct at ih ⊢
      rw [h]
      exact ih
    · unfold IdsDistinct TokensDistinct at ih ⊢
      rw [h]
      exact ⟨List.Pairwise.sublist (List.filter_sublist _) ih.1,
        List.Pairwise.sublist (List.filter_sublist _) ih.2⟩

/-- Witness for C9 on a concrete reachable state: a fresh database after
one successful post creation. -/
theorem reachable_ids_tokens_distinct_witness :
    IdsDistinct (create_post initState "alice" "hi" "fit" none "image/png" "me.png"
        "11111111-aaaa-bbbb-cccc-000000000001" "tok1aaaa" "t0").2 ∧
    TokensDistinct (create_post initState "alice" "hi" "fit" none "image/png" "me.png"
        "11111111-aaaa-bbbb-cccc-000000000001" "tok1aaaa" "t0").2 :=
  reachable_ids_tokens_distinct _
    (Reachable.create initState "alice" "hi" "fit" none "image/png" "me.png"
      "11111111-aaaa-bbbb-cccc-000000000001" "tok1aaaa" "t0" Reachable.init)
